import Mathlib

/-!
Verification development for the real-time voice-call response pipeline
(sentence segmenter, token stream client, turn orchestrator, streaming TTS).

Text is modelled as `List Char` (called `Str` below) so that the character
scans of the source translate to structural recursion.  JavaScript `\s` and
`String.trim` whitespace are modelled by the common ASCII whitespace
characters; none of the theorems below depend on the exotic Unicode space
code points that JS additionally accepts.
-/

set_option maxRecDepth 100000

-- ════ Definitions ═══════════════════════════════════════════════════════════

abbrev Str := List Char

/-- The whitespace test backing both the `\s` character class of the
sentence-boundary regex and `String.prototype.trim`. -/
def isWs (c : Char) : Bool :=
  c = ' ' || c = '\t' || c = '\n' || c = '\r' || c = '\x0b' || c = '\x0c'

/-- `String.prototype.trimStart`. -/
def trimStartStr (s : Str) : Str := s.dropWhile isWs

/-- `String.prototype.trimEnd`. -/
def trimEndStr (s : Str) : Str := (s.reverse.dropWhile isWs).reverse

/-- `String.prototype.trim`. -/
def trimStr (s : Str) : Str := trimEndStr (trimStartStr s)

/-- The characters of the class `[।.!?]` in `SENTENCE_END_PATTERN`
(sentence.buffer: `/(?<=[।.!?])(?:\s|$)/`). -/
def isSentenceEnd (c : Char) : Bool :=
  c = '।' || c = '.' || c = '!' || c = '?'

/-- Scanner for `buffer.match(SENTENCE_END_PATTERN)`: the regex engine walks
left to right and reports the first position `p` such that the character at
`p - 1` is sentence-ending punctuation and either the character at `p` is
whitespace (the `\s` alternative, match index `p`) or `p` is the end of the
string (the `$` alternative, empty match at index `p`).  `prev` carries the
character at `p - 1`. -/
def firstBoundaryAux : Option Char → Str → Nat → Option Nat
  | some pc, [], p => if isSentenceEnd pc then some p else none
  | none, [], _ => none
  | some pc, c :: rest, p =>
      if isSentenceEnd pc && isWs c then some p
      else firstBoundaryAux (some c) rest (p + 1)
  | none, c :: rest, p => firstBoundaryAux (some c) rest (p + 1)

/-- `match.index` of the first sentence boundary in the buffer, if any. -/
def firstBoundary (b : Str) : Option Nat := firstBoundaryAux none b 0

/-- `MIN_SENTENCE_LENGTH` -/
def MIN_SENTENCE_LENGTH : Nat := 12

/-- `MAX_BUFFER_LENGTH` -/
def MAX_BUFFER_LENGTH : Nat := 500

/-- The mutable fields of class `SentenceBuffer`. -/
structure SB where
  buffer : Str
  fullText : Str
  sentenceIndex : Nat
  flushed : Bool
deriving Repr, DecidableEq

/-- The callbacks a `SentenceBuffer` invokes, reified as an event list:
`sentence s i` is a call `onSentence(s, i)`, `done t` is `onDone(t)`. -/
inductive SBEvent
  | sentence (s : Str) (i : Nat)
  | done (full : Str)
deriving Repr, DecidableEq

/-- The fresh state `new SentenceBuffer(...)` starts from. -/
def SB.init : SB := ⟨[], [], 0, false⟩

/-- `buffer.lastIndexOf(' ', bound)`: the largest index `p ≤ bound` holding a
plain space, if any (JS `lastIndexOf` searches backwards from `fromIndex`). -/
def lastSpaceLE (s : Str) (bound : Nat) : Option Nat :=
  (List.range (min (bound + 1) s.length)).foldl
    (fun acc p => if s.getD p 'x' = ' ' then some p else acc) none

/-- `SentenceBuffer.forceFlushBuffer`, emitting into `acc`. -/
def forceFlushBuffer (sb : SB) (acc : List SBEvent) : SB × List SBEvent :=
  let lastSpace := lastSpaceLE sb.buffer MAX_BUFFER_LENGTH
  let splitAt :=
    match lastSpace with
    | some p => if p > MIN_SENTENCE_LENGTH then p else MAX_BUFFER_LENGTH
    | none => MAX_BUFFER_LENGTH
  let chunk := trimStr (sb.buffer.take splitAt)
  let rest := trimStartStr (sb.buffer.drop splitAt)
  if chunk.length > 0 then
    ({ sb with buffer := rest, sentenceIndex := sb.sentenceIndex + 1 },
      acc ++ [SBEvent.sentence chunk sb.sentenceIndex])
  else
    ({ sb with buffer := rest }, acc)

/-- `SentenceBuffer.extractSentences`.  The source bounds its while loop by
`safetyBreaker++ < 50`, so the loop body runs at most 50 times; that bound is
the structural fuel here. -/
def extractLoop : Nat → SB → List SBEvent → SB × List SBEvent
  | 0, sb, acc => (sb, acc)
  | fuel + 1, sb, acc =>
    match firstBoundary sb.buffer with
    | none =>
      if sb.buffer.length > MAX_BUFFER_LENGTH then forceFlushBuffer sb acc
      else (sb, acc)
    | some p =>
      let sentence := trimStr (sb.buffer.take p)
      let rest := trimStartStr (sb.buffer.drop p)
      if sentence.length < MIN_SENTENCE_LENGTH then
        -- too short: prepend it back so it merges with the next text, break
        ({ sb with buffer := sentence ++ ' ' :: rest }, acc)
      else
        extractLoop fuel
          { sb with buffer := rest, sentenceIndex := sb.sentenceIndex + 1 }
          (acc ++ [SBEvent.sentence sentence sb.sentenceIndex])

/-- `SentenceBuffer.push`. -/
def SB.push (sb : SB) (token : Str) : SB × List SBEvent :=
  if sb.flushed then (sb, [])
  else
    extractLoop 50
      { sb with buffer := sb.buffer ++ token, fullText := sb.fullText ++ token }
      []

/-- `SentenceBuffer.flush`. -/
def SB.flush (sb : SB) : SB × List SBEvent :=
  if sb.flushed then (sb, [])
  else
    let sb1 := { sb with flushed := true }
    let remaining := trimStr sb1.buffer
    if remaining.length > 0 then
      ({ sb1 with sentenceIndex := sb1.sentenceIndex + 1 },
        [SBEvent.sentence remaining sb1.sentenceIndex, SBEvent.done sb1.fullText])
    else
      (sb1, [SBEvent.done sb1.fullText])

/-- `SentenceBuffer.reset`. -/
def SB.reset (_ : SB) : SB := SB.init

/-- A single 501-character token: 12 spaces, `a`, a space, then 487 `b`s.
Its only spaces sit at indices 0–11 and 13, and it holds no sentence
punctuation, so pushing it overflows the buffer and force-flushes. -/
def c6tok : Str := List.replicate 12 ' ' ++ ['a', ' '] ++ List.replicate 487 'b'

/-- A single 501-character token: `a`, `b`, a space, then 498 `d`s.  Its only
space sits at index 2 (below the minimum-length floor) and it holds no
sentence punctuation. -/
def c7tok : Str := ['a', 'b', ' '] ++ List.replicate 498 'd'

/-- One step of the provider's SSE stream as observed by
`streamChatCompletion`: either a chunk (optional delta content plus whether a
finish reason is present) or the awaited iteration throwing (transport error
or the underlying request aborting). -/
inductive ProviderEvent
  | chunk (content : Option Str) (finish : Bool)
  | fail
deriving Repr, DecidableEq

/-- The callbacks `streamChatCompletion` invokes, in invocation order:
`onToken`, `onDone` (carrying the accumulated full text), `onError`. -/
inductive CbEvent
  | token (d : Str)
  | done (full : Str)
  | error
deriving Repr, DecidableEq

/-- The `signal?.aborted` reads, in temporal order: check 0 happens before
the request is issued, and the check accompanying the `i`-th provider event
(the loop-top check for a chunk, the catch-block check after a throw) is
check `i + 1`.  An `AbortSignal` is monotone, so a signal is fully described
by the index `k` of the first check that reads aborted (`none` = never). -/
def abortedAt (abortAt : Option Nat) (c : Nat) : Bool :=
  match abortAt with
  | none => false
  | some k => decide (k ≤ c)

/-- The body of `streamChatCompletion` from the first loop iteration on:
`c` is the index of the next `signal?.aborted` check and `fullText` the text
accumulated so far.  Observing the abort breaks the loop and fires `onDone`
with the partial text; a chunk delivers its delta through `onToken` and
accumulates it; a finish reason breaks the loop into `onDone`; a throw fires
`onDone` with the partial text when the signal is aborted (expected
cancellation) and `onError` otherwise. -/
def runStreamAux (abortAt : Option Nat) : Nat → Str → List ProviderEvent → List CbEvent
  | _, fullText, [] => [CbEvent.done fullText]
  | c, fullText, e :: rest =>
    if abortedAt abortAt c then [CbEvent.done fullText]
    else
      match e with
      | ProviderEvent.fail => [CbEvent.error]
      | ProviderEvent.chunk content finish =>
        match content with
        | some d =>
          if finish then [CbEvent.token d, CbEvent.done (fullText ++ d)]
          else CbEvent.token d :: runStreamAux abortAt (c + 1) (fullText ++ d) rest
        | none =>
          if finish then [CbEvent.done fullText]
          else runStreamAux abortAt (c + 1) fullText rest

/-- `streamChatCompletion`: the pre-start aborted check short-circuits into
`onDone('')` without issuing the request; otherwise the stream is consumed. -/
def streamChatCompletion (abortAt : Option Nat) (events : List ProviderEvent) :
    List CbEvent :=
  if abortedAt abortAt 0 then [CbEvent.done []]
  else runStreamAux abortAt 1 [] events

/-- `TTS_MAX_RETRIES` -/
def TTS_MAX_RETRIES : Nat := 2

/-- `TTS_CACHE_TTL_MS` (10 minutes). -/
def TTS_CACHE_TTL_MS : Nat := 10 * 60 * 1000

/-- `VALID_SPEAKERS` -/
def VALID_SPEAKERS : List String :=
  ["shubh", "aditya", "rahul", "anushka", "meera", "sarthak",
   "arjun", "amol", "maitreyi", "amartya", "arvind"]

/-- `DEFAULT_SPEAKER` -/
def DEFAULT_SPEAKER : String := "meera"

/-- `speaker.toLowerCase()`, modelled character by character. -/
def toLowerStr (s : String) : String := String.mk (s.data.map Char.toLower)

/-- `sanitiseSpeaker` -/
def sanitiseSpeaker (speaker : String) : String :=
  if VALID_SPEAKERS.contains (toLowerStr speaker) then toLowerStr speaker
  else DEFAULT_SPEAKER

/-- `getCacheKey`.  The source md5-hashes the payload
`stream|text|speaker|lang`; the hash is modelled as the identity on that
payload (a collision-free abstraction — equal keys iff equal payloads). -/
def getCacheKey (text speaker lang : String) : String :=
  "stream|" ++ text ++ "|" ++ speaker ++ "|" ++ lang

/-- What one awaited Sarvam request resolves to, as the retry loop sees it:
a 2xx response with audio, a 2xx response with an empty audio list, a non-2xx
status, or the bounded-timeout abort firing.  (Any other rejection behaves
exactly like `okEmpty`: caught, classified as non-timeout, rethrown with no
retry.) -/
inductive NetOutcome
  | ok (audio : String)
  | okEmpty
  | httpErr (status : Nat)
  | timeout
deriving Repr, DecidableEq

/-- The externally visible side effects of one `generateSentenceAudio` call:
provider requests issued and backoff sleeps, in order. -/
inductive TtsAction
  | request
  | sleep (ms : Nat)
deriving Repr, DecidableEq

/-- The typed errors `generateSentenceAudio` can surface. -/
inductive TtsErr
  | noApiKey
  | sarvamStatus (status : Nat)
  | timeoutErr
  | noAudio
  | unset
deriving Repr, DecidableEq

/-- The TTS cache (`ttsCache`) and the current clock reading.  `Map.set`
replaces an existing entry; prepending plus first-match lookup is
observationally the same for the lookups modelled here. -/
structure TtsState where
  cache : List (String × String × Nat)
  now : Nat
deriving Repr, DecidableEq

/-- `ttsCache.get(cacheKey)` -/
def cacheLookup (cache : List (String × String × Nat)) (key : String) :
    Option (String × Nat) :=
  match cache.find? (fun e => e.1 == key) with
  | some e => some e.2
  | none => none

/-- The retry loop `for (attempt = 1; attempt <= TTS_MAX_RETRIES; attempt++)`
of `generateSentenceAudio`, with `net attempt` the outcome of the request the
`attempt`-th iteration issues.  Fuel is the number of loop iterations left
(`TTS_MAX_RETRIES + 1 - attempt`); exhausting it is the final
`throw lastError`.  A non-2xx status below 500 is thrown and rethrown by the
catch (no retry); a 5xx `continue`s straight into the next attempt; a timeout
at the last attempt is rethrown, otherwise the loop sleeps `attempt * 800` ms
and retries. -/
def ttsAttempts (net : Nat → NetOutcome) :
    Nat → Nat → TtsErr → Except TtsErr String × List TtsAction
  | 0, _, lastErr => (Except.error lastErr, [])
  | fuel + 1, attempt, _ =>
    match net attempt with
    | NetOutcome.ok audio => (Except.ok audio, [TtsAction.request])
    | NetOutcome.okEmpty => (Except.error TtsErr.noAudio, [TtsAction.request])
    | NetOutcome.httpErr status =>
      if status < 500 then
        (Except.error (TtsErr.sarvamStatus status), [TtsAction.request])
      else
        let r := ttsAttempts net fuel (attempt + 1) (TtsErr.sarvamStatus status)
        (r.1, TtsAction.request :: r.2)
    | NetOutcome.timeout =>
      if attempt = TTS_MAX_RETRIES then
        (Except.error TtsErr.timeoutErr, [TtsAction.request])
      else
        let r := ttsAttempts net fuel (attempt + 1) TtsErr.timeoutErr
        (r.1, TtsAction.request :: TtsAction.sleep (attempt * 800) :: r.2)

/-- The cache-miss path of `generateSentenceAudio`: run the retry loop and,
on success, store the audio under the cache key with the current time. -/
def ttsNetworkPath (st : TtsState) (net : Nat → NetOutcome) (cacheKey : String) :
    Except TtsErr String × TtsState × List TtsAction :=
  let r := ttsAttempts net TTS_MAX_RETRIES 1 TtsErr.unset
  match r.1 with
  | Except.ok audio =>
    (Except.ok audio, ⟨(cacheKey, audio, st.now) :: st.cache, st.now⟩, r.2)
  | Except.error e => (Except.error e, st, r.2)

/-- `generateSentenceAudio`: API-key guard, cache lookup with TTL check
(an expired entry falls through to the network exactly like a miss), then
the bounded retry loop.  The request-payload truncation `text.slice(0, 2400)`
only shapes the provider payload and is not observable here; the cache key
uses the untruncated text, as in the source. -/
def generateSentenceAudio (st : TtsState) (hasApiKey : Bool)
    (net : Nat → NetOutcome) (text lang speaker : String) :
    Except TtsErr String × TtsState × List TtsAction :=
  if !hasApiKey then (Except.error TtsErr.noApiKey, st, [])
  else
    let cacheKey := getCacheKey text (sanitiseSpeaker speaker) lang
    match cacheLookup st.cache cacheKey with
    | some (audio, createdAt) =>
      if st.now - createdAt < TTS_CACHE_TTL_MS then (Except.ok audio, st, [])
      else ttsNetworkPath st net cacheKey
    | none => ttsNetworkPath st net cacheKey

def c8netTimeout : Nat → NetOutcome := fun _ => NetOutcome.timeout

/-- The network schedule of the C8 counterexample: the first request comes
back with status 500, the second succeeds. -/
def c8net : Nat → NetOutcome :=
  fun n => if n = 1 then NetOutcome.httpErr 500 else NetOutcome.ok "A"

def c9netFirst : Nat → NetOutcome := fun _ => NetOutcome.ok "AUDIO"

/-- `MAX_SILENCE` -/
def MAX_SILENCE : Nat := 3

/-- One entry of `session.messages`. -/
structure Message where
  role : String
  content : Str
deriving Repr, DecidableEq

/-- The `StreamSession` fields the orchestrator logic reads or writes.  The
pure bookkeeping fields (`callSid`, `streamSid`, `startedAt`,
`pendingMarks`) only feed logging, registry keys and mark tracking and are
not consulted by any modelled branch.  `abortController` holds the identity
of the current turn's controller (`none` = null); controller identities are
numbered by creation order. -/
structure StreamSession where
  voice : String
  language : String
  aiModel : String
  messages : List Message
  isProcessing : Bool
  isAlive : Bool
  silenceCount : Nat
  userInterrupted : Bool
  abortController : Option Nat
deriving Repr, DecidableEq

def ttsLe (a b : Nat × Option String) : Prop := a.1 ≤ b.1

instance : DecidableRel ttsLe :=
  fun a b => inferInstanceAs (Decidable (a.1 ≤ b.1))

instance : IsTotal (Nat × Option String) ttsLe :=
  ⟨fun a b => Nat.le_total a.1 b.1⟩

instance : IsTrans (Nat × Option String) ttsLe :=
  ⟨fun _ _ _ => Nat.le_trans⟩

def ttsLt (a b : Nat × Option String) : Prop := a.1 < b.1

instance : IsAntisymm (Nat × Option String) ttsLt :=
  ⟨fun _ _ h1 h2 => absurd (Nat.lt_trans h1 h2) (Nat.lt_irrefl _)⟩

/-- The collection step closing `processAIResponse`
(`ttsPromises.sort((a, b) => a.index - b.index)` followed by awaiting each
entry in order and keeping the non-null audio URLs).  Each pending promise is
modelled by its eventual value — `none` for a synthesis that permanently
failed (the per-sentence `.catch` returns null) — so the list order of
`tasks` carries no information the sort does not erase; the numeric-compare
JS sort on pairwise-distinct indices is the unique index-sorted reordering,
realised here by `List.insertionSort`. -/
def collectAudioUrls (tasks : List (Nat × Option String)) : List String :=
  (List.insertionSort ttsLe tasks).filterMap Prod.snd

/-- The fallback sentence the orchestrator's `onError` callback pushes. -/
def apologyText : Str := "I apologize, I am having trouble right now.".toList

/-- The state the callbacks of `processAIResponse` accumulate: the
`SentenceBuffer`, the `ttsPromises` array (index, eventual audio URL), and
`fullAiText`. -/
structure TurnAcc where
  sb : SB
  tts : List (Nat × Option String)
  fullAiText : Str
deriving Repr, DecidableEq

/-- The `onSentence` and `onDone` callbacks handed to the `SentenceBuffer`
(orchestrator lines 319–338): a sentence fires one TTS request — recorded
with its index and eventual result `r i s` — unless the session is dead or
marked interrupted; the done callback records the full text. -/
def applySbEvents (alive ui : Bool) (r : Nat → Str → Option String)
    (acc : TurnAcc) (evs : List SBEvent) : TurnAcc :=
  evs.foldl
    (fun acc ev =>
      match ev with
      | SBEvent.sentence s i =>
        if !alive || ui then acc
        else { acc with tts := acc.tts ++ [(i, r i s)] }
      | SBEvent.done full => { acc with fullAiText := full })
    acc

/-- The callbacks handed to `streamChatCompletion` (orchestrator lines
343–358), consuming its callback trace in order: `onToken` pushes into the
buffer, `onDone` flushes and then records the stream's text (the buffer's
own done callback fired first, with the identical concatenation), `onError`
pushes the apology sentence and flushes. -/
def driveStream (alive ui : Bool) (r : Nat → Str → Option String)
    (out : List CbEvent) : TurnAcc :=
  out.foldl
    (fun acc ev =>
      match ev with
      | CbEvent.token d =>
        applySbEvents alive ui r { acc with sb := (SB.push acc.sb d).1 }
          (SB.push acc.sb d).2
      | CbEvent.done text =>
        let acc2 := applySbEvents alive ui r
          { acc with sb := (SB.flush acc.sb).1 } (SB.flush acc.sb).2
        { acc2 with fullAiText := text }
      | CbEvent.error =>
        let acc1 := applySbEvents alive ui r
          { acc with sb := (SB.push acc.sb apologyText).1 }
          (SB.push acc.sb apologyText).2
        applySbEvents alive ui r { acc1 with sb := (SB.flush acc1.sb).1 }
          (SB.flush acc1.sb).2)
    ⟨SB.init, [], []⟩

/-- `processAIResponse` for one turn, parametrised by the provider stream
(`events`, with the cancellation signal `abortAt`), the fresh controller
identity this turn creates, and the synthesis oracle `r` giving each fired
TTS request's eventual outcome.  The `catch` wrapping `streamChatCompletion`
(fallback apology when the await itself throws) is unreachable here because
the modelled stream call reports provider errors through `onError` and
never throws. -/
def processAIResponse (s : StreamSession) (fresh : Nat)
    (events : List ProviderEvent) (abortAt : Option Nat)
    (r : Nat → Str → Option String) : List String × StreamSession :=
  let s2 := { s with isProcessing := true, userInterrupted := false,
                     abortController := some fresh }
  let acc := driveStream s2.isAlive s2.userInterrupted r
    (streamChatCompletion abortAt events)
  let audioUrls := collectAudioUrls acc.tts
  let s3 :=
    if 0 < (trimStr acc.fullAiText).length then
      { s2 with messages := s2.messages ++ [⟨"assistant", acc.fullAiText⟩] }
    else s2
  (audioUrls, { s3 with isProcessing := false, abortController := none })

/-- The observable outcome of `handleStreamingSpeech`, abstracting the four
TwiML shapes it returns: the no-session redirect, the goodbye-and-hangup
response, the `are you still there` re-prompt (either the Play variant or
its Say fallback), and a normal answer carrying the ordered audio URLs. -/
inductive BeginResult
  | noSession
  | goodbyeHangup
  | stillThere
  | answer (audioUrls : List String)
deriving Repr, DecidableEq

/-- The silence branch of `handleStreamingSpeech` (lines 179–233):
increment the counter; at `MAX_SILENCE` destroy the session (modelled by
returning `none`) and answer goodbye-and-hangup; below it, re-prompt without
touching the conversation history. -/
def handleSilence (s : StreamSession) : BeginResult × Option StreamSession :=
  let s1 := { s with silenceCount := s.silenceCount + 1 }
  if MAX_SILENCE ≤ s1.silenceCount then (BeginResult.goodbyeHangup, none)
  else (BeginResult.stillThere, some s1)

/-- `handleStreamingSpeech`: the missing/dead-session redirect, the silence
branch for null or blank speech, and the main path — reset the silence
counter, abort a still-in-flight prior stream (barge-in), append the user
message, and run the AI response pipeline. -/
def handleStreamingSpeech (session? : Option StreamSession) (speech : Option Str)
    (fresh : Nat) (events : List ProviderEvent) (abortAt : Option Nat)
    (r : Nat → Str → Option String) : BeginResult × Option StreamSession :=
  match session? with
  | none => (BeginResult.noSession, none)
  | some s =>
    if !s.isAlive then (BeginResult.noSession, some s)
    else
      match speech with
      | none => handleSilence s
      | some t =>
        if trimStr t = [] then handleSilence s
        else
          let s1 := { s with silenceCount := 0 }
          let s2 :=
            if s1.isProcessing && s1.abortController.isSome then
              { s1 with abortController := none, userInterrupted := true }
            else s1
          let s3 := { s2 with messages := s2.messages ++ [⟨"user", t⟩] }
          let pr := processAIResponse s3 fresh events abortAt r
          (BeginResult.answer pr.1, some pr.2)

def c4session : StreamSession :=
  ⟨"meera", "en-IN", "gpt-4o-mini",
   [⟨"system", "You are a helpful assistant.".toList⟩],
   false, true, 0, false, none⟩

/-- The world state of the barge-in scenario: the shared session, the
supply of fresh `AbortController` identities, the log of `abort()`
invocations (one entry per call, naming the aborted controller), and — once
the cancelled turn's late `onSentence` callback has run — whether its
sentence passed the guard and fired a TTS request (`some true`) or was
discarded (`some false`). -/
structure BargeWorld where
  session : StreamSession
  nextCtrl : Nat
  aborts : List Nat
  lateSentenceFired : Option Bool
deriving Repr, DecidableEq

/-- The synchronous prefix of `processAIResponse` (lines 296–298): mark the
turn in flight, clear the interruption flag, and install a freshly created
`AbortController`. -/
def startTurnPrefix (w : BargeWorld) : BargeWorld :=
  { w with
    session := { w.session with
      isProcessing := true, userInterrupted := false,
      abortController := some w.nextCtrl },
    nextCtrl := w.nextCtrl + 1 }

/-- The barge-in block of `handleStreamingSpeech` (lines 239–244): if a
prior turn is in flight with a controller installed, invoke `abort()` on
that controller once, null the field, and mark the session interrupted. -/
def bargeInPrefix (w : BargeWorld) : BargeWorld :=
  if w.session.isProcessing && w.session.abortController.isSome then
    { w with
      session := { w.session with
        abortController := none, userInterrupted := true },
      aborts := w.aborts ++ w.session.abortController.toList }
  else w

/-- The cancelled turn's continuation after its stream aborts
(`streamChatCompletion` resolves `onDone` with partial text → the
orchestrator's `onDone` callback flushes the turn's `SentenceBuffer` → any
remaining text reaches the `onSentence` guard at line 320): the late
sentence fires a TTS request unless the session is dead or the interruption
flag is still set. -/
def lateFlushGuard (w : BargeWorld) : BargeWorld :=
  { w with lateSentenceFired := some (w.session.isAlive && !w.session.userInterrupted) }

/-- The spec's barge-in scenario, in the order the JavaScript event loop
runs it.  Turn A starts (controller 0).  The barge-in webhook for
`"wait stop"` executes one synchronous block: the abort of turn A's
controller (line 241) through turn B's `processAIResponse` prefix (lines
296–298) up to the first await inside the new stream call — there is no
suspension point in between.  Turn A's reaction to the abort (its stream's
rejection, `onDone`, and the flush of its `SentenceBuffer`) is a promise
continuation, a microtask that can only run once that synchronous block has
completed — that is, strictly after turn B has reset `userInterrupted` to
false. -/
def bargeScenario : BargeWorld :=
  lateFlushGuard (startTurnPrefix (bargeInPrefix (startTurnPrefix
    ⟨c4session, 0, [], none⟩)))

-- ════ Theorems ══════════════════════════════════════════════════════════════

theorem dropWhile_idem (p : Char → Bool) (l : Str) :
    (l.dropWhile p).dropWhile p = l.dropWhile p := by
  induction l with
  | nil => rfl
  | cons a t ih =>
    by_cases h : p a = true
    · rw [List.dropWhile_cons_of_pos h]; exact ih
    · rw [List.dropWhile_cons_of_neg h, List.dropWhile_cons_of_neg h]

theorem dropWhile_append_last (p : Char → Bool) (v : Str) (x : Char)
    (hx : p x = false) : (v ++ [x]).dropWhile p = v.dropWhile p ++ [x] := by
  induction v with
  | nil => simp [List.dropWhile, hx]
  | cons a t ih =>
    by_cases h : p a = true
    · rw [List.cons_append, List.dropWhile_cons_of_pos h,
        List.dropWhile_cons_of_pos h, ih]
    · rw [List.cons_append, List.dropWhile_cons_of_neg h,
        List.dropWhile_cons_of_neg h, List.cons_append]

theorem dropWhile_head_false (p : Char → Bool) (l : Str) (x : Char) (t : Str)
    (h : l.dropWhile p = x :: t) : p x = false := by
  induction l with
  | nil => simp [List.dropWhile] at h
  | cons a r ih =>
    by_cases ha : p a = true
    · rw [List.dropWhile_cons_of_pos ha] at h; exact ih h
    · rw [List.dropWhile_cons_of_neg ha] at h
      cases h
      exact Bool.not_eq_true _ |>.mp ha

theorem trimEndStr_idem (w : Str) : trimEndStr (trimEndStr w) = trimEndStr w := by
  unfold trimEndStr
  rw [List.reverse_reverse, dropWhile_idem]

theorem trimStartStr_trimEndStr_of_head (u : Str) (hu : u.dropWhile isWs = u) :
    trimStartStr (trimEndStr u) = trimEndStr u := by
  cases hcons : u with
  | nil => rfl
  | cons x v =>
    have hx : isWs x = false := dropWhile_head_false isWs u x v (by rw [hu, hcons])
    have : trimEndStr (x :: v) = x :: (v.reverse.dropWhile isWs).reverse := by
      unfold trimEndStr
      rw [List.reverse_cons, dropWhile_append_last isWs v.reverse x hx,
        List.reverse_append]
      rfl
    rw [this]
    unfold trimStartStr
    rw [List.dropWhile_cons_of_neg (by simp [hx])]

theorem trimStr_idem (s : Str) : trimStr (trimStr s) = trimStr s := by
  unfold trimStr
  rw [trimStartStr_trimEndStr_of_head (trimStartStr s) (dropWhile_idem isWs s),
    trimEndStr_idem]

theorem trimStartStr_length_le (s : Str) : (trimStartStr s).length ≤ s.length :=
  (List.dropWhile_sublist isWs).length_le

/-- What the amended C6 needs: as long as the buffer stays within the
force-flush threshold, every sentence the extraction loop emits is already
trimmed and meets the minimum-length floor. -/
theorem extractLoop_emits_long (fuel : Nat) :
    ∀ sb acc, sb.buffer.length ≤ MAX_BUFFER_LENGTH →
    (∀ s i, SBEvent.sentence s i ∈ acc →
      MIN_SENTENCE_LENGTH ≤ s.length ∧ trimStr s = s) →
    ∀ s i, SBEvent.sentence s i ∈ (extractLoop fuel sb acc).2 →
      MIN_SENTENCE_LENGTH ≤ s.length ∧ trimStr s = s := by
  induction fuel with
  | zero => intro sb acc _ hacc s i hs; exact hacc s i hs
  | succ fuel ih =>
    intro sb acc hlen hacc s i hs
    unfold extractLoop at hs
    cases hfb : firstBoundary sb.buffer with
    | none =>
      rw [hfb] at hs
      have hnot : ¬ sb.buffer.length > MAX_BUFFER_LENGTH := by omega
      rw [if_neg hnot] at hs
      exact hacc s i hs
    | some p =>
      rw [hfb] at hs
      simp only at hs
      by_cases hshort :
          (trimStr (sb.buffer.take p)).length < MIN_SENTENCE_LENGTH
      · rw [if_pos hshort] at hs
        exact hacc s i hs
      · rw [if_neg hshort] at hs
        refine ih _ _ ?_ ?_ s i hs
        · calc (trimStartStr (sb.buffer.drop p)).length
              ≤ (sb.buffer.drop p).length := trimStartStr_length_le _
            _ ≤ sb.buffer.length := by
                rw [List.length_drop]; omega
            _ ≤ MAX_BUFFER_LENGTH := hlen
        · intro s' i' hmem
          rcases List.mem_append.mp hmem with hmem | hmem
          · exact hacc s' i' hmem
          · rcases List.mem_singleton.mp hmem with h
            cases h
            exact ⟨Nat.le_of_not_lt hshort, trimStr_idem _⟩

/-- C5: pushing the fragments `"Hi"`, `", how are"`, `" you? I am"`,
`" fine."` into a fresh SentenceBuffer emits exactly `"Hi, how are you?"` at
index 0 (during the third push), nothing during the other pushes, and the
final `flush` emits `"I am fine."` at index 1 followed by the done callback
carrying the full concatenated text. -/
theorem sentenceBuffer_scenario_hi_fine :
    (SB.push SB.init "Hi".toList).2 = [] ∧
    (SB.push (SB.push SB.init "Hi".toList).1 ", how are".toList).2 = [] ∧
    (SB.push (SB.push (SB.push SB.init "Hi".toList).1 ", how are".toList).1
        " you? I am".toList).2 =
      [SBEvent.sentence "Hi, how are you?".toList 0] ∧
    (SB.push (SB.push (SB.push (SB.push SB.init "Hi".toList).1
        ", how are".toList).1 " you? I am".toList).1 " fine.".toList).2 = [] ∧
    (SB.flush (SB.push (SB.push (SB.push (SB.push SB.init "Hi".toList).1
        ", how are".toList).1 " you? I am".toList).1 " fine.".toList).1).2 =
      [SBEvent.sentence "I am fine.".toList 1,
        SBEvent.done "Hi, how are you? I am fine.".toList] := by
  decide

/-- C6 counterexample: a single 501-character push with spaces only at
indices 0–11 and 13 makes the force-flush path emit the standalone sentence
`"a"`, whose trimmed length 1 is far below the 12-character floor, before the
stream has ended. -/
theorem sentenceBuffer_short_force_flush_emission :
    (SB.push SB.init c6tok).2 = [SBEvent.sentence ['a'] 0] ∧
    (trimStr ['a']).length < MIN_SENTENCE_LENGTH := by
  constructor
  · decide
  · decide

/-- C6 amended: provided a push never drives the accumulator past the
500-character force-flush threshold, every sentence emitted before the final
flush is already trimmed and no shorter than the 12-character floor; a
below-floor boundary candidate is prepended back rather than emitted.  (The
force-flush path, reached only past the threshold, may emit shorter chunks,
and the final flush emits the remaining text regardless of the floor.) -/
theorem sentenceBuffer_no_short_emission_below_threshold (sb : SB) (token : Str)
    (hlen : sb.buffer.length + token.length ≤ MAX_BUFFER_LENGTH) :
    ∀ s i, SBEvent.sentence s i ∈ (SB.push sb token).2 →
      MIN_SENTENCE_LENGTH ≤ s.length ∧ trimStr s = s := by
  intro s i hs
  unfold SB.push at hs
  by_cases hf : sb.flushed = true
  · rw [if_pos hf] at hs; simp at hs
  · rw [if_neg hf] at hs
    refine extractLoop_emits_long 50 _ [] ?_ ?_ s i hs
    · simpa using hlen
    · intro s' i' h; simp at h

theorem sentenceBuffer_no_short_emission_below_threshold_witness :
    MIN_SENTENCE_LENGTH ≤ "Hello there friend.".toList.length ∧
    trimStr "Hello there friend.".toList = "Hello there friend.".toList :=
  sentenceBuffer_no_short_emission_below_threshold SB.init
    "Hello there friend. ".toList (by decide) "Hello there friend.".toList 0
    (by decide)

/-- Helper: once the buffer holds no boundary and has outgrown the maximum
threshold, one round of the extraction loop is exactly the force flush. -/
theorem extractLoop_force (fuel : Nat) (sb : SB) (acc : List SBEvent)
    (hnb : firstBoundary sb.buffer = none)
    (hlen : MAX_BUFFER_LENGTH < sb.buffer.length) :
    extractLoop (fuel + 1) sb acc = forceFlushBuffer sb acc := by
  unfold extractLoop
  rw [hnb]
  simp [hlen]

/-- C7 counterexample: the 501-character buffer `c7tok` has a space at index
2 — whitespace clearly before the threshold — and no sentence boundary, yet
the force flush performs a hard cut at exactly the 500-character threshold
(the emitted chunk is the trimmed 500-character prefix) instead of splitting
at that space, because the space index does not exceed the 12-character
floor. -/
theorem forceFlush_hard_cut_despite_space :
    firstBoundary c7tok = none ∧
    MAX_BUFFER_LENGTH < c7tok.length ∧
    c7tok.getD 2 'x' = ' ' ∧ 2 < MAX_BUFFER_LENGTH ∧
    (SB.push SB.init c7tok).2 =
      [SBEvent.sentence (trimStr (c7tok.take MAX_BUFFER_LENGTH)) 0] ∧
    (trimStr (c7tok.take MAX_BUFFER_LENGTH)).length = MAX_BUFFER_LENGTH := by
  refine ⟨by decide, by decide, by decide, by decide, by decide, by decide⟩

/-- C7 amended: when the accumulator outgrows the 500-character threshold
with no sentence boundary, the push force-flushes, splitting at the last
space at index at most 500 provided that index exceeds the 12-character
minimum floor; otherwise — including when no space exists at all — it
hard-cuts at exactly the 500-character threshold.  The emitted chunk is the
trimmed prefix up to the split and the retained accumulator is the rest with
leading whitespace stripped. -/
theorem forceFlush_split_characterisation (sb : SB) (token : Str)
    (hfl : sb.flushed = false)
    (hnb : firstBoundary (sb.buffer ++ token) = none)
    (hlen : MAX_BUFFER_LENGTH < sb.buffer.length + token.length) :
    ∃ splitAt,
      ((∃ p, lastSpaceLE (sb.buffer ++ token) MAX_BUFFER_LENGTH = some p ∧
          MIN_SENTENCE_LENGTH < p ∧ splitAt = p) ∨
        (splitAt = MAX_BUFFER_LENGTH ∧
          ∀ p, lastSpaceLE (sb.buffer ++ token) MAX_BUFFER_LENGTH = some p →
            p ≤ MIN_SENTENCE_LENGTH)) ∧
      (SB.push sb token).2 =
        (if 0 < (trimStr ((sb.buffer ++ token).take splitAt)).length then
          [SBEvent.sentence (trimStr ((sb.buffer ++ token).take splitAt))
            sb.sentenceIndex]
        else []) ∧
      (SB.push sb token).1.buffer =
        trimStartStr ((sb.buffer ++ token).drop splitAt) := by
  have hpush : SB.push sb token =
      forceFlushBuffer
        { sb with buffer := sb.buffer ++ token,
                  fullText := sb.fullText ++ token } [] := by
    unfold SB.push
    rw [if_neg (by simp [hfl])]
    exact extractLoop_force 49 _ [] hnb (by simpa using hlen)
  rw [hpush]
  unfold forceFlushBuffer
  cases hls : lastSpaceLE (sb.buffer ++ token) MAX_BUFFER_LENGTH with
  | none =>
    refine ⟨MAX_BUFFER_LENGTH, Or.inr ⟨rfl, by intro p hp; cases hp⟩, ?_⟩
    simp only [hls]
    by_cases hc :
        0 < (trimStr ((sb.buffer ++ token).take MAX_BUFFER_LENGTH)).length
    · rw [if_pos hc, if_pos (by omega)]
      exact ⟨rfl, rfl⟩
    · rw [if_neg hc, if_neg (by omega)]
      exact ⟨rfl, rfl⟩
  | some p =>
    by_cases hp : MIN_SENTENCE_LENGTH < p
    · refine ⟨p, Or.inl ⟨p, rfl, hp, rfl⟩, ?_⟩
      simp only [hls, if_pos hp]
      by_cases hc : 0 < (trimStr ((sb.buffer ++ token).take p)).length
      · rw [if_pos hc, if_pos (by omega)]
        exact ⟨rfl, rfl⟩
      · rw [if_neg hc, if_neg (by omega)]
        exact ⟨rfl, rfl⟩
    · refine ⟨MAX_BUFFER_LENGTH,
        Or.inr ⟨rfl, by intro q hq; injection hq with h; omega⟩, ?_⟩
      simp only [hls, if_neg hp]
      by_cases hc :
          0 < (trimStr ((sb.buffer ++ token).take MAX_BUFFER_LENGTH)).length
      · rw [if_pos hc, if_pos (by omega)]
        exact ⟨rfl, rfl⟩
      · rw [if_neg hc, if_neg (by omega)]
        exact ⟨rfl, rfl⟩

theorem forceFlush_split_characterisation_witness :
    ∃ splitAt,
      ((∃ p, lastSpaceLE (SB.init.buffer ++ c6tok) MAX_BUFFER_LENGTH = some p ∧
          MIN_SENTENCE_LENGTH < p ∧ splitAt = p) ∨
        (splitAt = MAX_BUFFER_LENGTH ∧
          ∀ p, lastSpaceLE (SB.init.buffer ++ c6tok) MAX_BUFFER_LENGTH = some p →
            p ≤ MIN_SENTENCE_LENGTH)) ∧
      (SB.push SB.init c6tok).2 =
        (if 0 < (trimStr ((SB.init.buffer ++ c6tok).take splitAt)).length then
          [SBEvent.sentence (trimStr ((SB.init.buffer ++ c6tok).take splitAt))
            SB.init.sentenceIndex]
        else []) ∧
      (SB.push SB.init c6tok).1.buffer =
        trimStartStr ((SB.init.buffer ++ c6tok).drop splitAt) :=
  forceFlush_split_characterisation SB.init c6tok (by decide) (by decide)
    (by decide)

/-- C10: once `flush()` has run, every later `push` and `flush` is a no-op —
the state is unchanged and neither the sentence callback nor the done
callback fires (so the done callback fires at most once per turn) — and
`reset()` returns the buffer to the initial empty state with sentence
index 0. -/
theorem sentenceBuffer_flushed_inert (sb : SB) (token : Str)
    (h : sb.flushed = true) :
    SB.push sb token = (sb, []) ∧ SB.flush sb = (sb, []) ∧
    SB.reset sb = SB.init := by
  refine ⟨?_, ?_, rfl⟩
  · unfold SB.push; rw [if_pos h]
  · unfold SB.flush; rw [if_pos h]

theorem sentenceBuffer_flushed_inert_witness :
    SB.push (SB.flush SB.init).1 ['a'] = ((SB.flush SB.init).1, []) ∧
    SB.flush (SB.flush SB.init).1 = ((SB.flush SB.init).1, []) ∧
    SB.reset (SB.flush SB.init).1 = SB.init :=
  sentenceBuffer_flushed_inert (SB.flush SB.init).1 ['a'] (by decide)

theorem runStreamAux_good (k : Nat) (events : List ProviderEvent) :
    ∀ c fullText, (∀ i, events[i]? = some ProviderEvent.fail → k ≤ c + i) →
    ∃ toks : List Str, runStreamAux (some k) c fullText events =
      toks.map CbEvent.token ++ [CbEvent.done (fullText ++ toks.flatten)] := by
  induction events with
  | nil =>
    intro c fullText _
    exact ⟨[], by simp [runStreamAux]⟩
  | cons e rest ih =>
    intro c fullText hfail
    by_cases habort : abortedAt (some k) c = true
    · exact ⟨[], by simp [runStreamAux, habort]⟩
    · have habort' : abortedAt (some k) c = false := by
        simpa using habort
      have hrest : ∀ i, rest[i]? = some ProviderEvent.fail → k ≤ (c + 1) + i := by
        intro i hi
        have := hfail (i + 1) (by simpa using hi)
        omega
      cases e with
      | fail =>
        have := hfail 0 (by simp)
        have : abortedAt (some k) c = true := by
          simp [abortedAt]; omega
        simp [this] at habort'
      | chunk content finish =>
        cases content with
        | some d =>
          cases finish with
          | true => exact ⟨[d], by simp [runStreamAux, habort']⟩
          | false =>
            obtain ⟨toks, htoks⟩ := ih (c + 1) (fullText ++ d) hrest
            refine ⟨d :: toks, ?_⟩
            simp [runStreamAux, habort', htoks, List.append_assoc]
        | none =>
          cases finish with
          | true => exact ⟨[], by simp [runStreamAux, habort']⟩
          | false =>
            obtain ⟨toks, htoks⟩ := ih (c + 1) fullText hrest
            exact ⟨toks, by simp [runStreamAux, habort', htoks]⟩

theorem runStreamAux_take (k : Nat) (events : List ProviderEvent) :
    ∀ c fullText, runStreamAux (some k) c fullText events =
      runStreamAux (some k) c fullText (events.take (k - c)) := by
  induction events with
  | nil => intro c fullText; rw [List.take_nil]
  | cons e rest ih =>
    intro c fullText
    by_cases hck : k ≤ c
    · have h0 : k - c = 0 := by omega
      have ha : abortedAt (some k) c = true := by simp [abortedAt]; omega
      rw [h0, List.take_zero]
      simp [runStreamAux, ha]
    · have hsub : k - c = (k - (c + 1)) + 1 := by omega
      have ha : abortedAt (some k) c = false := by simp [abortedAt]; omega
      rw [hsub, List.take_succ_cons]
      cases e with
      | fail => simp [runStreamAux, ha]
      | chunk content finish =>
        cases content with
        | some d =>
          cases finish with
          | true => simp [runStreamAux, ha]
          | false => simp [runStreamAux, ha]; rw [ih]
        | none =>
          cases finish with
          | true => simp [runStreamAux, ha]
          | false => simp [runStreamAux, ha]; rw [ih]

/-- C2: if the cancellation signal is triggered so that the `k`-th
`signal?.aborted` check is the first to read true — before the request
(`k = 0`), between chunks, or while awaiting the provider (a throw observed
while aborted) — then the callback sequence is exactly the tokens delivered
before the abort was observed followed by a single `onDone` carrying
precisely their concatenation: `onError` never fires for the cancellation,
and no token is delivered at or beyond the abort point (the run equals the
run on the truncated stream). -/
theorem streamChatCompletion_cancellation (events : List ProviderEvent) (k : Nat)
    (hfail : ∀ i, events[i]? = some ProviderEvent.fail → k ≤ i + 1) :
    (∃ toks : List Str, streamChatCompletion (some k) events =
      toks.map CbEvent.token ++ [CbEvent.done toks.flatten]) ∧
    streamChatCompletion (some k) events =
      streamChatCompletion (some k) (events.take (k - 1)) := by
  constructor
  · unfold streamChatCompletion
    by_cases h0 : abortedAt (some k) 0 = true
    · exact ⟨[], by simp [h0]⟩
    · have h0' : abortedAt (some k) 0 = false := by simpa using h0
      rw [h0']
      simp only [Bool.false_eq_true, if_false]
      obtain ⟨toks, htoks⟩ :=
        runStreamAux_good k events 1 []
          (by intro i hi; have := hfail i hi; omega)
      exact ⟨toks, by simpa using htoks⟩
  · unfold streamChatCompletion
    by_cases h0 : abortedAt (some k) 0 = true
    · simp [h0]
    · have h0' : abortedAt (some k) 0 = false := by simpa using h0
      rw [h0']
      simp only [Bool.false_eq_true, if_false]
      exact runStreamAux_take k events 1 []

theorem streamChatCompletion_cancellation_witness :
    (∃ toks : List Str, streamChatCompletion (some 2)
        [ProviderEvent.chunk (some ['H', 'i']) false,
         ProviderEvent.chunk (some ['!']) false, ProviderEvent.fail] =
      toks.map CbEvent.token ++ [CbEvent.done toks.flatten]) ∧
    streamChatCompletion (some 2)
        [ProviderEvent.chunk (some ['H', 'i']) false,
         ProviderEvent.chunk (some ['!']) false, ProviderEvent.fail] =
      streamChatCompletion (some 2)
        ([ProviderEvent.chunk (some ['H', 'i']) false,
          ProviderEvent.chunk (some ['!']) false, ProviderEvent.fail].take (2 - 1)) :=
  streamChatCompletion_cancellation
    [ProviderEvent.chunk (some ['H', 'i']) false,
     ProviderEvent.chunk (some ['!']) false, ProviderEvent.fail] 2
    (by
      intro i hi
      match i, hi with
      | 2, _ => omega
      | 0, hi => simp at hi
      | 1, hi => simp at hi
      | (n + 3), hi => simp at hi)

theorem ttsAttempts_succ (net : Nat → NetOutcome) (fuel attempt : Nat)
    (lastErr : TtsErr) :
    ttsAttempts net (fuel + 1) attempt lastErr =
      match net attempt with
      | NetOutcome.ok audio => (Except.ok audio, [TtsAction.request])
      | NetOutcome.okEmpty => (Except.error TtsErr.noAudio, [TtsAction.request])
      | NetOutcome.httpErr status =>
        if status < 500 then
          (Except.error (TtsErr.sarvamStatus status), [TtsAction.request])
        else
          let r := ttsAttempts net fuel (attempt + 1) (TtsErr.sarvamStatus status)
          (r.1, TtsAction.request :: r.2)
      | NetOutcome.timeout =>
        if attempt = TTS_MAX_RETRIES then
          (Except.error TtsErr.timeoutErr, [TtsAction.request])
        else
          let r := ttsAttempts net fuel (attempt + 1) TtsErr.timeoutErr
          (r.1, TtsAction.request :: TtsAction.sleep (attempt * 800) :: r.2) := by
  rfl

/-- The final loop iteration (`attempt = TTS_MAX_RETRIES = 1 + 1`) issues
exactly one request and never sleeps, whatever its outcome. -/
theorem ttsAttempts_last (net : Nat → NetOutcome) (lastErr : TtsErr) :
    (ttsAttempts net 1 (1 + 1) lastErr).2 = [TtsAction.request] := by
  have h1 : ttsAttempts net 1 (1 + 1) lastErr =
      ttsAttempts net (0 + 1) (1 + 1) lastErr := rfl
  rw [h1, ttsAttempts_succ]
  cases h : net (1 + 1) with
  | ok audio => rfl
  | okEmpty => rfl
  | httpErr status =>
    by_cases hs : status < 500
    · simp [hs]
    · simp [hs, ttsAttempts]
  | timeout => simp [TTS_MAX_RETRIES]

/-- With a cache miss, the result and the actions of `generateSentenceAudio`
are exactly those of the retry loop (plus the cache store on success, which
performs no request). -/
theorem generateSentenceAudio_actions_of_miss (st : TtsState)
    (net : Nat → NetOutcome) (text lang speaker : String)
    (hmiss : cacheLookup st.cache
      (getCacheKey text (sanitiseSpeaker speaker) lang) = none) :
    (generateSentenceAudio st true net text lang speaker).2.2 =
      (ttsAttempts net (1 + 1) 1 TtsErr.unset).2 ∧
    (generateSentenceAudio st true net text lang speaker).1 =
      (ttsAttempts net (1 + 1) 1 TtsErr.unset).1 := by
  have hfuel : ttsAttempts net TTS_MAX_RETRIES 1 TtsErr.unset =
      ttsAttempts net (1 + 1) 1 TtsErr.unset := rfl
  simp only [generateSentenceAudio, Bool.not_true, Bool.false_eq_true,
    if_false, hmiss]
  unfold ttsNetworkPath
  rw [hfuel]
  cases h : (ttsAttempts net (1 + 1) 1 TtsErr.unset).1 with
  | ok audio => simp [h]
  | error e => simp [h]

/-- The retry loop produces exactly one of three action traces: a single
request, two back-to-back requests (5xx retry), or two requests separated by
the 800 ms backoff (timeout retry). -/
theorem ttsAttempts_start_cases (net : Nat → NetOutcome) :
    (ttsAttempts net (1 + 1) 1 TtsErr.unset).2 = [TtsAction.request] ∨
    (ttsAttempts net (1 + 1) 1 TtsErr.unset).2 =
      [TtsAction.request, TtsAction.request] ∨
    (ttsAttempts net (1 + 1) 1 TtsErr.unset).2 =
      [TtsAction.request, TtsAction.sleep 800, TtsAction.request] := by
  rw [ttsAttempts_succ]
  cases h1 : net 1 with
  | ok audio => left; simp
  | okEmpty => left; simp
  | httpErr status =>
    by_cases hs : status < 500
    · left; simp [hs]
    · right; left; simp [hs, ttsAttempts_last]
  | timeout =>
    right; right; simp [TTS_MAX_RETRIES, ttsAttempts_last]

/-- C8 amended: on a cache miss, at most two provider requests are ever
issued; a 4xx-class first response fails immediately after a single request
with no retry; a 5xx-class first response causes exactly one retry issued
immediately, with no backoff sleep between the two requests; a timeout on
the first request causes exactly one retry after the 800 ms backoff. -/
theorem generateSentenceAudio_retry_policy (st : TtsState)
    (net : Nat → NetOutcome) (text lang speaker : String)
    (hmiss : cacheLookup st.cache
      (getCacheKey text (sanitiseSpeaker speaker) lang) = none) :
    ((generateSentenceAudio st true net text lang speaker).2.2.countP
        (fun a => a == TtsAction.request) ≤ TTS_MAX_RETRIES) ∧
    (∀ status, net 1 = NetOutcome.httpErr status → status < 500 →
      (generateSentenceAudio st true net text lang speaker).1 =
        Except.error (TtsErr.sarvamStatus status) ∧
      (generateSentenceAudio st true net text lang speaker).2.2 =
        [TtsAction.request]) ∧
    (∀ status, net 1 = NetOutcome.httpErr status → 500 ≤ status →
      (generateSentenceAudio st true net text lang speaker).2.2 =
        [TtsAction.request, TtsAction.request]) ∧
    (net 1 = NetOutcome.timeout →
      (generateSentenceAudio st true net text lang speaker).2.2 =
        [TtsAction.request, TtsAction.sleep 800, TtsAction.request]) := by
  obtain ⟨hacts, hres⟩ :=
    generateSentenceAudio_actions_of_miss st net text lang speaker hmiss
  refine ⟨?_, ?_, ?_, ?_⟩
  · rcases ttsAttempts_start_cases net with h | h | h <;> rw [hacts, h] <;> decide
  · intro status h1 hs
    constructor
    · rw [hres, ttsAttempts_succ]
      simp [h1, hs]
    · rw [hacts, ttsAttempts_succ]
      simp [h1, hs]
  · intro status h1 hs
    rw [hacts, ttsAttempts_succ]
    have hs' : ¬ status < 500 := by omega
    simp [h1, hs', ttsAttempts_last]
  · intro h1
    rw [hacts, ttsAttempts_succ]
    simp [h1, TTS_MAX_RETRIES, ttsAttempts_last]

theorem generateSentenceAudio_retry_policy_witness :
    ((generateSentenceAudio ⟨[], 0⟩ true c8netTimeout "hello" "en-IN" "meera").2.2.countP
        (fun a => a == TtsAction.request) ≤ TTS_MAX_RETRIES) ∧
    (∀ status, c8netTimeout 1 = NetOutcome.httpErr status → status < 500 →
      (generateSentenceAudio ⟨[], 0⟩ true c8netTimeout "hello" "en-IN" "meera").1 =
        Except.error (TtsErr.sarvamStatus status) ∧
      (generateSentenceAudio ⟨[], 0⟩ true c8netTimeout "hello" "en-IN" "meera").2.2 =
        [TtsAction.request]) ∧
    (∀ status, c8netTimeout 1 = NetOutcome.httpErr status → 500 ≤ status →
      (generateSentenceAudio ⟨[], 0⟩ true c8netTimeout "hello" "en-IN" "meera").2.2 =
        [TtsAction.request, TtsAction.request]) ∧
    (c8netTimeout 1 = NetOutcome.timeout →
      (generateSentenceAudio ⟨[], 0⟩ true c8netTimeout "hello" "en-IN" "meera").2.2 =
        [TtsAction.request, TtsAction.sleep 800, TtsAction.request]) :=
  generateSentenceAudio_retry_policy ⟨[], 0⟩ c8netTimeout "hello" "en-IN" "meera" rfl

/-- C8 counterexample: on a cache miss whose first provider response is a
5xx, the call issues its single retry immediately — the action trace is two
back-to-back requests with no backoff sleep anywhere — contradicting the
claim that a 5xx-class response is retried `after a short backoff` (only the
timeout path backs off). -/
theorem generateSentenceAudio_5xx_retries_without_backoff :
    (generateSentenceAudio ⟨[], 0⟩ true c8net "hello" "en-IN" "meera").2.2 =
      [TtsAction.request, TtsAction.request] ∧
    (∀ ms, TtsAction.sleep ms ∉
      (generateSentenceAudio ⟨[], 0⟩ true c8net "hello" "en-IN" "meera").2.2) := by
  have h : (generateSentenceAudio ⟨[], 0⟩ true c8net "hello" "en-IN" "meera").2.2 =
      [TtsAction.request, TtsAction.request] := by decide
  refine ⟨h, ?_⟩
  intro ms hmem
  rw [h] at hmem
  simp at hmem

/-- C9: a call for (text, voice, language) that misses the cache and
succeeds stores its audio; any second call for the identical triple whose
clock reading is within the 10-minute TTL of the first returns exactly the
stored payload, leaves the state untouched, and performs no action at all —
in particular zero network requests — whatever the network would have
answered. -/
theorem generateSentenceAudio_cache_hit (st0 : TtsState)
    (net1 net2 : Nat → NetOutcome) (text lang speaker audio : String) (t1 : Nat)
    (hmiss : cacheLookup st0.cache
      (getCacheKey text (sanitiseSpeaker speaker) lang) = none)
    (hok : net1 1 = NetOutcome.ok audio)
    (httl : t1 - st0.now < TTS_CACHE_TTL_MS) :
    (generateSentenceAudio st0 true net1 text lang speaker).1 =
      Except.ok audio ∧
    generateSentenceAudio
        ⟨(generateSentenceAudio st0 true net1 text lang speaker).2.1.cache, t1⟩
        true net2 text lang speaker =
      (Except.ok audio,
        ⟨(generateSentenceAudio st0 true net1 text lang speaker).2.1.cache, t1⟩,
        []) := by
  have hfirst : generateSentenceAudio st0 true net1 text lang speaker =
      (Except.ok audio,
        ⟨(getCacheKey text (sanitiseSpeaker speaker) lang, audio, st0.now) ::
          st0.cache, st0.now⟩,
        [TtsAction.request]) := by
    have hfuel : ttsAttempts net1 TTS_MAX_RETRIES 1 TtsErr.unset =
        ttsAttempts net1 (1 + 1) 1 TtsErr.unset := rfl
    simp only [generateSentenceAudio, Bool.not_true, Bool.false_eq_true,
      if_false, hmiss]
    unfold ttsNetworkPath
    rw [hfuel, ttsAttempts_succ]
    simp [hok]
  refine ⟨by rw [hfirst], ?_⟩
  rw [hfirst]
  simp only [generateSentenceAudio, Bool.not_true, Bool.false_eq_true, if_false]
  rw [show cacheLookup
      ((getCacheKey text (sanitiseSpeaker speaker) lang, audio, st0.now) ::
        st0.cache)
      (getCacheKey text (sanitiseSpeaker speaker) lang) =
      some (audio, st0.now) by simp [cacheLookup, List.find?]]
  simp [httl]

theorem generateSentenceAudio_cache_hit_witness :
    (generateSentenceAudio ⟨[], 0⟩ true c9netFirst "hi" "en-IN" "meera").1 =
      Except.ok "AUDIO" ∧
    generateSentenceAudio
        ⟨(generateSentenceAudio ⟨[], 0⟩ true c9netFirst "hi" "en-IN" "meera").2.1.cache, 5⟩
        true c8netTimeout "hi" "en-IN" "meera" =
      (Except.ok "AUDIO",
        ⟨(generateSentenceAudio ⟨[], 0⟩ true c9netFirst "hi" "en-IN" "meera").2.1.cache, 5⟩,
        []) :=
  generateSentenceAudio_cache_hit ⟨[], 0⟩ c9netFirst c8netTimeout
    "hi" "en-IN" "meera" "AUDIO" 5 rfl rfl (by decide)

/-- C1: whatever order the per-sentence synthesis tasks are recorded or
complete in — `tasks` may list the index/result pairs in any permutation of
the turn's indices `0 … n-1`, each task's eventual result fixed by the
oracle `r` — the pipeline's collection step returns exactly the audio of the
successful sentences in strictly ascending index order: a permanently failed
sentence (result `none`) is omitted and every later successful sentence
keeps its correct relative position. -/
theorem collectAudioUrls_ordered (n : Nat) (tasks : List (Nat × Option String))
    (r : Nat → Option String)
    (hperm : (tasks.map Prod.fst).Perm (List.range n))
    (hval : ∀ p ∈ tasks, p.2 = r p.1) :
    collectAudioUrls tasks = (List.range n).filterMap r := by
  have h1 : tasks.map (fun p => ((p.1 : Nat), r p.1)) = tasks := by
    have hcg : ∀ p ∈ tasks, ((p.1 : Nat), r p.1) = p := by
      intro p hp
      have := hval p hp
      cases p
      simp_all
    calc tasks.map (fun p => ((p.1 : Nat), r p.1)) = tasks.map id := by
          apply List.map_congr_left hcg
      _ = tasks := List.map_id tasks
  have h2 : tasks.Perm ((List.range n).map fun i => (i, r i)) := by
    have hmap := hperm.map (fun i => (i, r i))
    rw [List.map_map] at hmap
    exact (h1 ▸ hmap :)
  have hsorted1 : List.Sorted ttsLe (List.insertionSort ttsLe tasks) :=
    List.sorted_insertionSort ttsLe tasks
  have hpermSort : (List.insertionSort ttsLe tasks).Perm tasks :=
    List.perm_insertionSort ttsLe tasks
  have hnodup : ((List.insertionSort ttsLe tasks).map Prod.fst).Nodup := by
    have hp : ((List.insertionSort ttsLe tasks).map Prod.fst).Perm (List.range n) :=
      (hpermSort.map Prod.fst).trans hperm
    exact hp.nodup_iff.mpr (List.nodup_range n)
  have hlt1 : List.Sorted ttsLt (List.insertionSort ttsLe tasks) := by
    have hne : (List.insertionSort ttsLe tasks).Pairwise
        (fun a b => a.1 ≠ b.1) := List.pairwise_map.mp hnodup
    exact (hsorted1.and hne).imp fun h => Nat.lt_of_le_of_ne h.1 h.2
  have hlt2 : List.Sorted ttsLt ((List.range n).map fun i => (i, r i)) := by
    refine List.pairwise_map.mpr ?_
    exact (List.pairwise_lt_range n).imp fun h => h
  have heq : List.insertionSort ttsLe tasks = (List.range n).map fun i => (i, r i) :=
    List.eq_of_perm_of_sorted (hpermSort.trans h2) hlt1 hlt2
  unfold collectAudioUrls
  rw [heq, List.filterMap_map]
  rfl

theorem collectAudioUrls_ordered_witness :
    collectAudioUrls [(2, some "c"), (0, some "a"), (1, none)] =
      (List.range 3).filterMap
        (fun i => [some "a", none, some "c"].getD i none) :=
  collectAudioUrls_ordered 3 [(2, some "c"), (0, some "a"), (1, none)]
    (fun i => [some "a", none, some "c"].getD i none) (by decide) (by decide)

/-- The AI response pipeline never touches the silence counter. -/
theorem processAIResponse_silenceCount (s : StreamSession) (fresh : Nat)
    (events : List ProviderEvent) (abortAt : Option Nat)
    (r : Nat → Str → Option String) :
    ((processAIResponse s fresh events abortAt r).2).silenceCount =
      s.silenceCount := by
  unfold processAIResponse
  dsimp only
  split <;> rfl

/-- C4: with the default silence threshold `MAX_SILENCE = 3` and a session
whose consecutive-silence counter is 0, the first and second empty-utterance
calls return the re-prompt result, leave the conversation history unchanged
and only advance the counter; the third returns the terminal
goodbye-and-hangup result and destroys the session; and any non-empty
utterance yields a session whose counter has been reset to 0. -/
theorem silence_policy (s : StreamSession) (fresh : Nat)
    (events : List ProviderEvent) (abortAt : Option Nat)
    (r : Nat → Str → Option String)
    (halive : s.isAlive = true) (hcount : s.silenceCount = 0) :
    handleStreamingSpeech (some s) none fresh events abortAt r =
      (BeginResult.stillThere, some { s with silenceCount := 1 }) ∧
    handleStreamingSpeech (some { s with silenceCount := 1 }) none fresh
        events abortAt r =
      (BeginResult.stillThere, some { s with silenceCount := 2 }) ∧
    handleStreamingSpeech (some { s with silenceCount := 2 }) none fresh
        events abortAt r =
      (BeginResult.goodbyeHangup, none) ∧
    ({ s with silenceCount := 1 } : StreamSession).messages = s.messages ∧
    ({ s with silenceCount := 2 } : StreamSession).messages = s.messages ∧
    (∀ t, trimStr t ≠ [] → ∃ s',
      (handleStreamingSpeech (some s) (some t) fresh events abortAt r).2 =
        some s' ∧ s'.silenceCount = 0) := by
  refine ⟨?_, ?_, ?_, rfl, rfl, ?_⟩
  · simp [handleStreamingSpeech, handleSilence, halive, hcount, MAX_SILENCE]
  · simp [handleStreamingSpeech, handleSilence, halive, MAX_SILENCE]
  · simp [handleStreamingSpeech, handleSilence, halive, MAX_SILENCE]
  · intro t ht
    simp only [handleStreamingSpeech]
    rw [if_neg (by simp [halive]), if_neg ht]
    refine ⟨_, rfl, ?_⟩
    dsimp only
    rw [processAIResponse_silenceCount]
    split <;> rfl

theorem silence_policy_witness :
    handleStreamingSpeech (some c4session) none 0 [] none (fun _ _ => none) =
      (BeginResult.stillThere, some { c4session with silenceCount := 1 }) ∧
    handleStreamingSpeech (some { c4session with silenceCount := 1 }) none 0 []
        none (fun _ _ => none) =
      (BeginResult.stillThere, some { c4session with silenceCount := 2 }) ∧
    handleStreamingSpeech (some { c4session with silenceCount := 2 }) none 0 []
        none (fun _ _ => none) =
      (BeginResult.goodbyeHangup, none) ∧
    ({ c4session with silenceCount := 1 } : StreamSession).messages =
      c4session.messages ∧
    ({ c4session with silenceCount := 2 } : StreamSession).messages =
      c4session.messages ∧
    (∀ t, trimStr t ≠ [] → ∃ s',
      (handleStreamingSpeech (some c4session) (some t) 0 [] none
        (fun _ _ => none)).2 = some s' ∧ s'.silenceCount = 0) :=
  silence_policy c4session 0 [] none (fun _ _ => none) rfl rfl

/-- C3 evaluated on the code: in the barge-in scenario, turn A's controller
(identity 0) is aborted exactly once and turn B starts with the distinct
fresh controller 1 — those two parts of the claim hold — but the cancelled
turn's late sentence is NOT discarded: by the time its flush runs, turn B's
initialisation has already reset `userInterrupted` to false, so the guard
at line 320 passes and the late sentence fires a synthesis request whose
result lands in the cancelled turn's own output. -/
theorem bargeIn_late_sentence_not_discarded :
    bargeScenario.aborts = [0] ∧
    (bargeInPrefix (startTurnPrefix
      ⟨c4session, 0, [], none⟩)).session.abortController = none ∧
    (startTurnPrefix (bargeInPrefix (startTurnPrefix
      ⟨c4session, 0, [], none⟩))).session.abortController = some 1 ∧
    bargeScenario.lateSentenceFired = some true := by
  refine ⟨by decide, by decide, by decide, by decide⟩
